import Mathlib

/-!
Shallow embedding of the circulation and membership core of the library
record-keeper (Express routes in src/server/db.ts, in-memory storage in
src/server/storage.ts, Supabase storage in src/unnamed/part_001, shared
schema in src/unnamed/part_000).

Modelling conventions:
- JavaScript numbers holding copy counts are modelled as Int (the code can
  in principle drive them negative, and the borrow path clamps with
  Math.max); dates are modelled as Nat day counts, so the route's
  dueDate.setDate(getDate() + 14) becomes addition of 14.
- Record ids (random strings or UUIDs in the source) are modelled as Nat,
  allocated from a monotone counter, which captures exactly the freshness
  the source relies on.
- The JavaScript truthiness tests in the source (x or-else d, if (x) ...)
  are translated explicitly: 0 is falsy for numbers, the empty string is
  falsy for strings, null/undefined is falsy for optionals.
- bcrypt.compare is an external collaborator and is passed in as an
  abstract compare function.
- The storage maps are modelled as lists of records keyed by id; Map.set
  on an existing key is replacement at the key, modelled by mapping over
  the list.
-/

/-! Generic lemmas about the keyed-list representation of the storage
maps. -/

/-- ASCII lowercase of a string, character by character.  Models
JavaScript's toLowerCase on the ASCII identifiers and status strings this
code handles.  (Lean's String.toLower is avoided because it does not
reduce in the kernel.) -/
def strToLower (s : String) : String := String.mk (s.data.map Char.toLower)

/-- JavaScript x or-else d on numbers: 0 is falsy. -/
def jsOrInt (x d : Int) : Int := if x = 0 then d else x

/-- JavaScript x or-else d on an optional string: null/undefined and the
empty string are falsy. -/
def jsOrString (x : Option String) (d : String) : String :=
  match x with
  | some v => if v == "" then d else v
  | none => d

/-- Catalog entry (schema Book in src/unnamed/part_000; only the fields
the circulation core reads or writes are kept). -/
structure Book where
  id : Nat
  bookName : String
  shortIntro : String
  description : String
  totalCopies : Int
  availableCopies : Int
deriving DecidableEq

/-- Loan record (schema BookBorrow in src/unnamed/part_000). -/
structure BookBorrow where
  id : Nat
  userId : String
  bookId : Nat
  bookTitle : String
  borrowerName : String
  borrowerPhone : String
  borrowerEmail : String
  borrowDate : Nat
  dueDate : Nat
  returnDate : Option Nat
  status : String
deriving DecidableEq

/-- Library card application (schema LibraryCardApplication in
src/unnamed/part_000; studentClass models the source field named class,
which is a keyword in Lean). -/
structure LibraryCardApplication where
  id : Nat
  userId : Option String
  firstName : String
  lastName : String
  studentClass : String
  field : Option String
  rollNo : String
  email : String
  phone : String
  status : String
  cardNumber : Option String
  password : Option String
deriving DecidableEq

/-- Student record provisioned on approval (schema Student in
src/unnamed/part_000). -/
structure Student where
  id : Nat
  userId : String
  cardId : String
  name : String
  studentClass : String
  field : Option String
  rollNo : String
deriving DecidableEq

/-- The repository state: the storage maps used by the circulation and
membership core, plus the id-allocation counter. -/
structure DBState where
  books : List Book
  bookBorrows : List BookBorrow
  apps : List LibraryCardApplication
  students : List Student
  nextId : Nat
deriving DecidableEq

def initState : DBState := ⟨[], [], [], [], 0⟩

/-- MemStorage.getBook. -/
def getBook (s : DBState) (bid : Nat) : Option Book :=
  s.books.find? (fun b => b.id == bid)

/-- The route's borrows.find(b => b.id === id) / MemStorage map get. -/
def getBorrow (s : DBState) (bid : Nat) : Option BookBorrow :=
  s.bookBorrows.find? (fun b => b.id == bid)

/-- MemStorage.getLibraryCardApplication. -/
def getApp (s : DBState) (appId : Nat) : Option LibraryCardApplication :=
  s.apps.find? (fun a => a.id == appId)

/-- MemStorage.updateBook as invoked by the borrow/return routes: the
partial update carries only availableCopies, every other field is kept. -/
def updateBookAvail (s : DBState) (bid : Nat) (avail : Int) : DBState :=
  { s with books :=
      s.books.map (fun b => if b.id == bid then { b with availableCopies := avail } else b) }

/-- POST /api/admin/books composed with MemStorage.createBook: the route
sends availableCopies equal to Number(totalCopies), and the storage layer
applies Number(x or-else 1) to both counters. -/
def createBook (s : DBState) (bookName shortIntro description : String)
    (totalCopies : Int) : DBState × Book :=
  let b : Book :=
    { id := s.nextId, bookName := bookName, shortIntro := shortIntro,
      description := description,
      totalCopies := jsOrInt totalCopies 1,
      availableCopies := jsOrInt totalCopies 1 }
  ({ s with books := s.books ++ [b], nextId := s.nextId + 1 }, b)

/-- MemStorage.createBookBorrow: borrowDate is stamped now, returnDate is
null, status is borrowed, dueDate is taken from the caller. -/
def createBookBorrow (s : DBState) (userId : String) (bookId : Nat)
    (bookTitle borrowerName borrowerPhone borrowerEmail : String)
    (dueDate now : Nat) : DBState × BookBorrow :=
  let br : BookBorrow :=
    { id := s.nextId, userId := userId, bookId := bookId,
      bookTitle := bookTitle, borrowerName := borrowerName,
      borrowerPhone := borrowerPhone, borrowerEmail := borrowerEmail,
      borrowDate := now, dueDate := dueDate, returnDate := none,
      status := "borrowed" }
  ({ s with bookBorrows := s.bookBorrows ++ [br], nextId := s.nextId + 1 }, br)

inductive BorrowError where
  | notFound
  | noCopiesAvailable
deriving DecidableEq

/-- POST /api/book-borrows: look the book up, reject when missing or when
(availableCopies or-else 0) is at most 0, otherwise create the loan with
dueDate now + 14 days and decrement the counter to
Math.max(0, availableCopies - 1).  The borrower snapshot strings are
computed by the route from the session before this logic and enter as
parameters. -/
def borrowBook (s : DBState) (userId : String) (bookId : Nat)
    (bookTitle borrowerName borrowerPhone borrowerEmail : String)
    (now : Nat) : DBState × Except BorrowError BookBorrow :=
  match getBook s bookId with
  | none => (s, .error .notFound)
  | some book =>
    if book.availableCopies ≤ 0 then (s, .error .noCopiesAvailable)
    else
      let res := createBookBorrow s userId bookId bookTitle borrowerName
        borrowerPhone borrowerEmail (now + 14) now
      let s2 := updateBookAvail res.1 bookId (max 0 (book.availableCopies - 1))
      (s2, .ok res.2)

/-- The record update performed by MemStorage.updateBookBorrowStatus:
status is overwritten, returnDate becomes (returnDate or-else the stored
returnDate), everything else is spread through unchanged. -/
def applyBorrowUpdate (b : BookBorrow) (status : String)
    (returnDate : Option Nat) : BookBorrow :=
  { b with
    status := status,
    returnDate :=
      match returnDate with
      | some d => some d
      | none => b.returnDate }

/-- MemStorage.updateBookBorrowStatus. -/
def updateBookBorrowStatus (s : DBState) (bid : Nat) (status : String)
    (returnDate : Option Nat) : DBState × Option BookBorrow :=
  match getBorrow s bid with
  | none => (s, none)
  | some b =>
    let updated := applyBorrowUpdate b status returnDate
    ({ s with bookBorrows :=
        s.bookBorrows.map (fun x => if x.id == bid then updated else x) },
     some updated)

inductive ReturnError where
  | notFound
  | alreadyReturned
deriving DecidableEq

/-- PATCH /api/book-borrows/:id/return: find the loan, reject when missing
or already returned, otherwise mark it returned with returnDate now and,
when the associated book still exists, bump its counter to
(availableCopies or-else 0) + 1.  (The storage re-lookup cannot miss after
the route found the loan; that unreachable branch is mapped to notFound.) -/
def returnCopy (s : DBState) (borrowId now : Nat) :
    DBState × Except ReturnError BookBorrow :=
  match getBorrow s borrowId with
  | none => (s, .error .notFound)
  | some borrow =>
    if borrow.status == "returned" then (s, .error .alreadyReturned)
    else
      let res := updateBookBorrowStatus s borrowId "returned" (some now)
      let s2 :=
        match getBook res.1 borrow.bookId with
        | none => res.1
        | some book => updateBookAvail res.1 borrow.bookId (book.availableCopies + 1)
      (s2,
       match res.2 with
       | some u => .ok u
       | none => .error .notFound)

/-- PATCH /api/book-borrows/:id/status: the body's status and optional
returnDate (undefined when the body field is falsy) are handed straight to
MemStorage.updateBookBorrowStatus; the book counter is never touched. -/
def setBorrowStatus (s : DBState) (borrowId : Nat) (status : String)
    (returnDate : Option Nat) : DBState × Option BookBorrow :=
  updateBookBorrowStatus s borrowId status returnDate

/-- The exact-count query SupabaseStorage runs before provisioning: the
number of students whose card_id equals the card number. -/
def countStudentsByCardId (students : List Student) (cn : String) : Nat :=
  (students.filter (fun st => st.cardId == cn)).length

/-- SupabaseStorage.updateLibraryCardApplicationStatus: overwrite status;
when the new status is approved and the application has a truthy
cardNumber, count existing students with that card id and, only when the
count is zero, insert a student whose userId is
(application.userId or-else the string card- followed by the application
id), whose cardId is the card number, and whose name joins the applicant's
first and last names. -/
def updateLibraryCardApplicationStatus (s : DBState) (appId : Nat)
    (status : String) : DBState × Option LibraryCardApplication :=
  match getApp s appId with
  | none => (s, none)
  | some app =>
    let updated := { app with status := status }
    let s1 :=
      { s with apps := s.apps.map (fun a => if a.id == appId then updated else a) }
    if status == "approved" then
      match updated.cardNumber with
      | some cn =>
        if cn == "" then (s1, some updated)
        else if countStudentsByCardId s1.students cn == 0 then
          let st : Student :=
            { id := s1.nextId,
              userId := jsOrString updated.userId ("card-" ++ toString updated.id),
              cardId := cn,
              name := updated.firstName ++ " " ++ updated.lastName,
              studentClass := updated.studentClass,
              field := updated.field,
              rollNo := updated.rollNo }
          ({ s1 with students := s1.students ++ [st], nextId := s1.nextId + 1 },
           some updated)
        else (s1, some updated)
      | none => (s1, some updated)
    else (s1, some updated)

/-- MemStorage.getLibraryCardByCardNumber: strict equality (===) of the
stored, possibly null, cardNumber against the query. -/
def memGetLibraryCardByCardNumber (apps : List LibraryCardApplication)
    (cardNumber : String) : Option LibraryCardApplication :=
  apps.find? (fun a => a.cardNumber == some cardNumber)

/-- SQL ILIKE pattern matching as used by the Supabase lookup: percent
matches any sequence, underscore any single character, other characters
match case-insensitively.  The fuel argument (pattern length plus string
length bounds the recursion depth) keeps the definition structurally
recursive so it evaluates in the kernel. -/
def ilikeAux : Nat → List Char → List Char → Bool
  | _, [], str => str.isEmpty
  | 0, _ :: _, _ => false
  | fuel + 1, p :: ps, str =>
    if p = '%' then
      ilikeAux fuel ps str ||
        (match str with
         | [] => false
         | _ :: tl => ilikeAux fuel (p :: ps) tl)
    else
      match str with
      | [] => false
      | c :: tl => (if p = '_' then true else p.toLower == c.toLower) && ilikeAux fuel ps tl

def ilikeMatch (pat str : List Char) : Bool :=
  ilikeAux (pat.length + str.length) pat str

/-- SupabaseStorage.getLibraryCardByCardNumber: ilike on card_number
followed by .single(), which yields a row only when exactly one row
matches and an error (surfaced as undefined) otherwise. -/
def supaGetLibraryCardByCardNumber (apps : List LibraryCardApplication)
    (pat : String) : Option LibraryCardApplication :=
  match apps.filter (fun a =>
      match a.cardNumber with
      | some cn => ilikeMatch pat.data cn.data
      | none => false) with
  | [a] => some a
  | _ => none

/-- Outcomes of the library-card branch of POST /api/auth/login, one
constructor per distinct response of the route. -/
inductive AuthResult where
  | passwordRequired
  | notFound
  | invalidCredential
  | noCredential
  | notApprovedPending
  | notApprovedRejected
  | notApprovedOther
  | success (app : LibraryCardApplication)
deriving DecidableEq

/-- The route's (status toLowerCase or-else pending) normalisation. -/
def normalizedStatus (st : String) : String :=
  if strToLower st == "" then "pending" else strToLower st

/-- The library-card branch of POST /api/auth/login: require a truthy
password, look the card up, check the stored hash if one is present, then
gate on the normalised status; bcrypt.compare enters as the abstract
compareHash collaborator. -/
def cardLogin (compareHash : String → String → Bool)
    (apps : List LibraryCardApplication) (libraryCardId : String)
    (password : Option String) : AuthResult :=
  match password with
  | none => .passwordRequired
  | some pw =>
    if pw == "" then .passwordRequired
    else
      match memGetLibraryCardByCardNumber apps libraryCardId with
      | none => .notFound
      | some cardApp =>
        match cardApp.password with
        | none => .noCredential
        | some stored =>
          if stored == "" then .noCredential
          else if !compareHash pw stored then .invalidCredential
          else
            let status := normalizedStatus cardApp.status
            if status == "pending" then .notApprovedPending
            else if status == "rejected" then .notApprovedRejected
            else if status != "approved" then .notApprovedOther
            else .success cardApp

/-- The fixed field-code table of generateCardNumber. -/
def fieldCodes : List (String × String) :=
  [("Computer Science", "CS"), ("Pre-Medical", "PM"), ("Pre-Engineering", "PE"),
   ("Humanities", "HU"), ("Commerce", "CO")]

/-- The fixed class-code table of generateCardNumber. -/
def classCodes : List (String × String) :=
  [("Class 11", "11"), ("Class 12", "12"), ("ADS I", "AI"), ("ADS II", "AII"),
   ("BSc Part 1", "BI"), ("BSc Part 2", "BII")]

def isAsciiLetter (c : Char) : Bool :=
  ('A' ≤ c && c ≤ 'Z') || ('a' ≤ c && c ≤ 'z')

/-- The regex replace of a leading letter plus optional hyphen: one ASCII
letter at the start is dropped, together with one following hyphen when
present; anything else leaves the roll number untouched. -/
def stripRollLetter : List Char → List Char
  | [] => []
  | c :: rest =>
    if isAsciiLetter c then
      match rest with
      | '-' :: rest2 => rest2
      | _ => rest
    else c :: rest

def cleanRollNo (rollNo : String) : String :=
  String.mk (stripRollLetter rollNo.data)

/-- field ? (fieldCodes[field] or-else XX) : XX. -/
def fieldCodeOf (field : Option String) : String :=
  match field with
  | some f => if f == "" then "XX" else (fieldCodes.lookup f).getD "XX"
  | none => "XX"

/-- classCodes[studentClass] or-else XX. -/
def classCodeOf (studentClass : String) : String :=
  (classCodes.lookup studentClass).getD "XX"

/-- generateCardNumber as implemented identically in MemStorage and
SupabaseStorage. -/
def generateCardNumber (field : Option String) (rollNo studentClass : String) :
    String :=
  fieldCodeOf field ++ "-" ++ cleanRollNo rollNo ++ "-" ++ classCodeOf studentClass

def witBookZero : Book :=
  { id := 0, bookName := "B", shortIntro := "s", description := "d",
    totalCopies := 1, availableCopies := 0 }

def witStateZero : DBState :=
  { books := [witBookZero], bookBorrows := [], apps := [], students := [],
    nextId := 1 }

def witReturnedLoan : BookBorrow :=
  { id := 0, userId := "u", bookId := 1, bookTitle := "B",
    borrowerName := "n", borrowerPhone := "p", borrowerEmail := "e",
    borrowDate := 1, dueDate := 15, returnDate := some 2,
    status := "returned" }

def witStateReturned : DBState :=
  { books := [], bookBorrows := [witReturnedLoan], apps := [],
    students := [], nextId := 2 }

def witBorrowedLoan : BookBorrow :=
  { id := 0, userId := "u", bookId := 1, bookTitle := "B",
    borrowerName := "n", borrowerPhone := "p", borrowerEmail := "e",
    borrowDate := 1, dueDate := 15, returnDate := some 4,
    status := "borrowed" }

def witStateBorrowed : DBState :=
  { books := [witBookZero], bookBorrows := [witBorrowedLoan], apps := [],
    students := [], nextId := 2 }

def c9App : LibraryCardApplication :=
  { id := 0, userId := none, firstName := "A", lastName := "B",
    studentClass := "Class 11", field := some ("Computer Science"),
    rollNo := "1", email := "a@b.c", phone := "0", status := "approved",
    cardNumber := some ("CS-1-11"), password := none }

def c9AppTwin : LibraryCardApplication := { c9App with id := 1 }

def witBookTwo : Book :=
  { id := 0, bookName := "B", shortIntro := "s", description := "d",
    totalCopies := 2, availableCopies := 2 }

def witStateTwo : DBState :=
  { books := [witBookTwo], bookBorrows := [], apps := [], students := [],
    nextId := 1 }

def witBookOne : Book :=
  { id := 1, bookName := "B", shortIntro := "s", description := "d",
    totalCopies := 2, availableCopies := 1 }

def witStateReturnable : DBState :=
  { books := [witBookOne], bookBorrows := [witBorrowedLoan], apps := [],
    students := [], nextId := 2 }

def c4App : LibraryCardApplication :=
  { id := 0, userId := none, firstName := "A", lastName := "B",
    studentClass := "Class 11", field := some ("Computer Science"),
    rollNo := "9", email := "a@b.c", phone := "0", status := "pending",
    cardNumber := some ("CS-9-11"), password := none }

def c4State : DBState :=
  { books := [], bookBorrows := [], apps := [c4App], students := [],
    nextId := 1 }

def c8App : LibraryCardApplication :=
  { id := 0, userId := none, firstName := "A", lastName := "B",
    studentClass := "Class 11", field := none, rollNo := "7",
    email := "a@b.c", phone := "0", status := "Approved",
    cardNumber := some ("XX-7-11"), password := some ("pw") }

def isActiveFor (bid : Nat) (br : BookBorrow) : Bool :=
  br.bookId == bid && br.status != "returned"

def activeCount (l : List BookBorrow) (bid : Nat) : Nat :=
  l.countP (isActiveFor bid)

structure StateInv (s : DBState) : Prop where
  booksNonneg : ∀ b ∈ s.books, 0 ≤ b.availableCopies
  booksBound : ∀ b ∈ s.books,
    b.availableCopies + (activeCount s.bookBorrows b.id : Int) ≤ b.totalCopies
  bookIdLt : ∀ b ∈ s.books, b.id < s.nextId
  borrowIdLt : ∀ br ∈ s.bookBorrows, br.id < s.nextId
  borrowBookIdLt : ∀ br ∈ s.bookBorrows, br.bookId < s.nextId
  bookIdsNodup : s.books.Pairwise (fun a b => a.id ≠ b.id)
  borrowIdsNodup : s.bookBorrows.Pairwise (fun a b => a.id ≠ b.id)

inductive LibStep : DBState → DBState → Prop
  | createBook (s : DBState) (nm si d : String) (n : Int) (hn : 0 ≤ n) :
      LibStep s (createBook s nm si d n).1
  | borrow (s : DBState) (uid : String) (bid : Nat) (t nm ph em : String)
      (now : Nat) :
      LibStep s (borrowBook s uid bid t nm ph em now).1
  | returnStep (s : DBState) (bid now : Nat) :
      LibStep s (returnCopy s bid now).1

inductive LibReachable : DBState → Prop
  | init : LibReachable initState
  | step {s s' : DBState} (hs : LibReachable s) (h : LibStep s s') :
      LibReachable s'

def c1DemoBook : Book :=
  { id := 0, bookName := "B", shortIntro := "s", description := "d",
    totalCopies := 2, availableCopies := 2 }

/-- A map whose function preserves the key commutes with lookup by key. -/
theorem find?_map_of_key_eq {α : Type} (key : α → Nat) (f : α → α)
    (hf : ∀ x, key (f x) = key x) (l : List α) (tid : Nat) :
    (l.map f).find? (fun x => key x == tid) =
      (l.find? (fun x => key x == tid)).map f := by
  induction l with
  | nil => rfl
  | cons a t ih =>
    by_cases ha : key a = tid
    · rw [List.map_cons, List.find?_cons_of_pos, List.find?_cons_of_pos] <;>
        simp [hf, ha]
    · rw [List.map_cons, List.find?_cons_of_neg, List.find?_cons_of_neg, ih] <;>
        simp [hf, ha]

/-- In a list whose keys are pairwise distinct, two members sharing a key
are the same record. -/
theorem eq_of_mem_pairwise_key {α : Type} (key : α → Nat) {l : List α}
    (hnd : l.Pairwise (fun a b => key a ≠ key b)) {x y : α}
    (hx : x ∈ l) (hy : y ∈ l) (h : key x = key y) : x = y := by
  induction l with
  | nil => cases hx
  | cons a t ih =>
    rw [List.pairwise_cons] at hnd
    rcases List.mem_cons.mp hx with rfl | hx' <;>
      rcases List.mem_cons.mp hy with rfl | hy'
    · rfl
    · exact absurd h (hnd.1 y hy')
    · exact absurd h.symm (hnd.1 x hx')
    · exact ih hnd.2 hx' hy'

/-- Replacing at a key that no element carries is the identity. -/
theorem map_replace_id {α : Type} (key : α → Nat) (l : List α) (tid : Nat)
    (nb : α) (h : ∀ x ∈ l, key x ≠ tid) :
    l.map (fun x => if key x == tid then nb else x) = l := by
  induction l with
  | nil => rfl
  | cons a t ih =>
    rw [List.map_cons, if_neg, ih (fun x hx => h x (List.mem_cons_of_mem _ hx))]
    simp [h a (List.mem_cons_self a t)]

/-- Replacing the unique element carrying a key changes a countP tally by
swapping that element's contribution for the replacement's. -/
theorem countP_map_replace {α : Type} (key : α → Nat) (p : α → Bool)
    {l : List α} (hnd : l.Pairwise (fun a b => key a ≠ key b)) {br : α}
    (hmem : br ∈ l) {tid : Nat} (hbr : key br = tid) (nb : α) :
    (l.map (fun x => if key x == tid then nb else x)).countP p +
        (if p br then 1 else 0) =
      l.countP p + (if p nb then 1 else 0) := by
  induction l with
  | nil => cases hmem
  | cons a t ih =>
    rw [List.pairwise_cons] at hnd
    rcases List.mem_cons.mp hmem with rfl | hmem'
    · have htail : t.map (fun x => if key x == tid then nb else x) = t := by
        refine map_replace_id key t tid nb (fun x hx => ?_)
        exact fun hkey => (hnd.1 x hx) (hkey.trans hbr.symm).symm |>.elim
      rw [List.map_cons, if_pos (by simp [hbr]), htail,
        List.countP_cons, List.countP_cons]
      omega
    · have hne : key a ≠ tid := fun hkey =>
        (hnd.1 br hmem') (hkey.trans hbr.symm)
      rw [List.map_cons, if_neg (by simp [hne]), List.countP_cons,
        List.countP_cons]
      have := ih hnd.2 hmem'
      omega

/-- Unfolded form of getBorrow for use with library find? lemmas. -/
theorem getBorrow_eq (s : DBState) (bid : Nat) :
    getBorrow s bid = s.bookBorrows.find? (fun b => b.id == bid) := rfl

/-- A found loan carries the id it was looked up by. -/
theorem getBorrow_id {s : DBState} {bid : Nat} {br : BookBorrow}
    (h : getBorrow s bid = some br) : br.id = bid := by
  have h' : s.bookBorrows.find? (fun b => b.id == bid) = some br := h
  simpa using List.find?_some h'

/-- A found book carries the id it was looked up by. -/
theorem getBook_id {s : DBState} {bid : Nat} {b : Book}
    (h : getBook s bid = some b) : b.id = bid := by
  have h' : s.books.find? (fun x => x.id == bid) = some b := h
  simpa using List.find?_some h'

/-- A found application carries the id it was looked up by. -/
theorem getApp_id {s : DBState} {appId : Nat} {a : LibraryCardApplication}
    (h : getApp s appId = some a) : a.id = appId := by
  have h' : s.apps.find? (fun x => x.id == appId) = some a := h
  simpa using List.find?_some h'

/-- C10: generateCardNumber is a deterministic composition
fieldCode-cleanedRollNo-classCode, where the field code falls back to XX
for unknown or absent fields, the class code falls back to XX, and the
cleaned roll number strips one leading letter plus an optional hyphen; in
particular Computer Science, A-123, Class 11 yields CS-123-11 and an
absent field with roll 045 and an unknown class yields XX-045-XX. -/
theorem c10_generateCardNumber_spec :
    generateCardNumber (some ("Computer Science")) "A-123" "Class 11" = "CS-123-11"
  ∧ generateCardNumber none "045" "Unknown Track" = "XX-045-XX"
  ∧ ∀ (field : Option String) (rollNo studentClass : String),
      generateCardNumber field rollNo studentClass =
        fieldCodeOf field ++ "-" ++ cleanRollNo rollNo ++ "-" ++
          classCodeOf studentClass :=
  ⟨by decide, by decide, fun _ _ _ => rfl⟩

/-- C3: borrowing an unknown book fails with NotFound and performs no
write, and borrowing a book with zero available copies fails with
NoCopiesAvailable, creates no loan and leaves the whole state, the book
included, unchanged. -/
theorem c3_borrow_preconditions (s : DBState) (uid : String) (bid : Nat)
    (title nm ph em : String) (now : Nat) :
    (getBook s bid = none →
       borrowBook s uid bid title nm ph em now = (s, .error .notFound))
  ∧ (∀ book, getBook s bid = some book → book.availableCopies = 0 →
       borrowBook s uid bid title nm ph em now =
         (s, .error .noCopiesAvailable)) := by
  constructor
  · intro h
    simp [borrowBook, h]
  · intro book hb hav
    simp [borrowBook, hb, hav]

theorem c3_borrow_preconditions_witness :
    borrowBook witStateZero "u" 5 "B" "n" "p" "e" 3 =
      (witStateZero, .error .notFound)
  ∧ borrowBook witStateZero "u" 0 "B" "n" "p" "e" 3 =
      (witStateZero, .error .noCopiesAvailable) :=
  ⟨(c3_borrow_preconditions witStateZero "u" 5 "B" "n" "p" "e" 3).1 rfl,
   (c3_borrow_preconditions witStateZero "u" 0 "B" "n" "p" "e" 3).2
     witBookZero rfl rfl⟩

/-- C5: returning a loan whose status is already returned fails with
AlreadyReturned and performs no write at all: the returned state is the
input state, so the loan record and every book counter are unchanged. -/
theorem c5_return_already_returned (s : DBState) (bid now : Nat)
    (br : BookBorrow) (h : getBorrow s bid = some br)
    (hst : br.status = "returned") :
    returnCopy s bid now = (s, .error .alreadyReturned) := by
  simp [returnCopy, h, hst]

theorem c5_return_already_returned_witness :
    returnCopy witStateReturned 0 9 =
      (witStateReturned, .error .alreadyReturned) :=
  c5_return_already_returned witStateReturned 0 9 witReturnedLoan rfl rfl

/-- C7: the administrative status override rewrites only the loan's status
and returnDate: the book list (and with it every availableCopies counter),
the student and application tables are untouched, the loan's snapshot
fields and dates are preserved, and when no return-date override is
supplied the previously stored returnDate is kept whatever the new status
value is. -/
theorem c7_setBorrowStatus_frame (s : DBState) (bid : Nat) (st : String)
    (rd : Option Nat) (br : BookBorrow) (h : getBorrow s bid = some br) :
    (setBorrowStatus s bid st rd).1.books = s.books
  ∧ (setBorrowStatus s bid st rd).1.students = s.students
  ∧ (setBorrowStatus s bid st rd).1.apps = s.apps
  ∧ (setBorrowStatus s bid st rd).2 = some (applyBorrowUpdate br st rd)
  ∧ getBorrow (setBorrowStatus s bid st rd).1 bid =
      some (applyBorrowUpdate br st rd)
  ∧ (applyBorrowUpdate br st rd).status = st
  ∧ (applyBorrowUpdate br st rd).bookTitle = br.bookTitle
  ∧ (applyBorrowUpdate br st rd).borrowerName = br.borrowerName
  ∧ (applyBorrowUpdate br st rd).borrowerPhone = br.borrowerPhone
  ∧ (applyBorrowUpdate br st rd).borrowerEmail = br.borrowerEmail
  ∧ (applyBorrowUpdate br st rd).borrowDate = br.borrowDate
  ∧ (applyBorrowUpdate br st rd).dueDate = br.dueDate
  ∧ (applyBorrowUpdate br st rd).userId = br.userId
  ∧ (applyBorrowUpdate br st rd).bookId = br.bookId
  ∧ (rd = none → (applyBorrowUpdate br st rd).returnDate = br.returnDate) := by
  have hid : br.id = bid := getBorrow_id h
  have hfind :
      getBorrow (setBorrowStatus s bid st rd).1 bid =
        some (applyBorrowUpdate br st rd) := by
    have hf : ∀ x : BookBorrow,
        (if x.id == bid then applyBorrowUpdate br st rd else x).id = x.id := by
      intro x
      by_cases hx : x.id = bid
      · simp [hx, applyBorrowUpdate, hid]
      · simp [hx]
    have hcomm := find?_map_of_key_eq BookBorrow.id
      (fun x => if x.id == bid then applyBorrowUpdate br st rd else x) hf
      s.bookBorrows bid
    have hbase : s.bookBorrows.find? (fun b => b.id == bid) = some br := h
    simp only [setBorrowStatus, updateBookBorrowStatus, h, getBorrow_eq]
    rw [hcomm, hbase]
    simp [hid]
  refine ⟨?_, ?_, ?_, ?_, hfind, ?_, ?_, ?_, ?_, ?_, ?_, ?_, ?_, ?_, ?_⟩ <;>
    simp [setBorrowStatus, updateBookBorrowStatus, h, applyBorrowUpdate]
  intro hrd
  simp [hrd]

theorem c7_setBorrowStatus_frame_witness :
    (setBorrowStatus witStateBorrowed 0 "lost" none).1.books =
      witStateBorrowed.books
  ∧ (setBorrowStatus witStateBorrowed 0 "lost" none).2 =
      some (applyBorrowUpdate witBorrowedLoan "lost" none)
  ∧ (applyBorrowUpdate witBorrowedLoan "lost" none).returnDate =
      witBorrowedLoan.returnDate :=
  have hmain :=
    c7_setBorrowStatus_frame witStateBorrowed 0 "lost" none witBorrowedLoan rfl
  ⟨hmain.1, hmain.2.2.2.1, hmain.2.2.2.2.2.2.2.2.2.2.2.2.2.2 rfl⟩

/-- C9 counterexample: with one stored application carrying card number
CS-1-11, the query cs-1-11 is equal to the stored number up to letter case
yet the in-memory lookup returns nothing, against the claimed
case-insensitive match; and the Supabase ilike-plus-single lookup returns
nothing on an exactly matching query when two stored applications carry
that card number. -/
theorem c9_lookup_counterexample :
    (strToLower "cs-1-11" = strToLower "CS-1-11"
      ∧ memGetLibraryCardByCardNumber [c9App] "cs-1-11" = none)
  ∧ supaGetLibraryCardByCardNumber [c9App, c9AppTwin] "CS-1-11" = none :=
  ⟨⟨by decide, by decide⟩, by decide⟩

/-- C9 amended: the in-memory lookup is a case-sensitive exact match: any
application it returns is a stored one whose cardNumber equals the query
exactly, a NotFound answer means no stored cardNumber equals the query
exactly, and whenever some stored cardNumber equals the query exactly an
application with that cardNumber is returned. -/
theorem c9_mem_lookup_case_sensitive (apps : List LibraryCardApplication)
    (q : String) :
    (∀ a, memGetLibraryCardByCardNumber apps q = some a →
       a ∈ apps ∧ a.cardNumber = some q)
  ∧ (memGetLibraryCardByCardNumber apps q = none →
       ∀ a ∈ apps, a.cardNumber ≠ some q)
  ∧ ((∃ a ∈ apps, a.cardNumber = some q) →
       ∃ a, memGetLibraryCardByCardNumber apps q = some a ∧
         a.cardNumber = some q) := by
  refine ⟨?_, ?_, ?_⟩
  · intro a h
    have h' : apps.find? (fun x => x.cardNumber == some q) = some a := h
    refine ⟨List.mem_of_find?_eq_some h', ?_⟩
    simpa using List.find?_some h'
  · intro h a ha hcn
    have h' : apps.find? (fun x => x.cardNumber == some q) = none := h
    rw [List.find?_eq_none] at h'
    have := h' a ha
    simp [hcn] at this
  · intro hex
    match hres : memGetLibraryCardByCardNumber apps q with
    | some a =>
      have h' : apps.find? (fun x => x.cardNumber == some q) = some a := hres
      exact ⟨a, rfl, by simpa using List.find?_some h'⟩
    | none =>
      rcases hex with ⟨a, ha, hcn⟩
      have h' : apps.find? (fun x => x.cardNumber == some q) = none := hres
      rw [List.find?_eq_none] at h'
      have := h' a ha
      simp [hcn] at this

theorem c9_mem_lookup_case_sensitive_witness :
    c9App ∈ [c9App] ∧ c9App.cardNumber = some ("CS-1-11") :=
  (c9_mem_lookup_case_sensitive [c9App] "CS-1-11").1 c9App rfl

/-- C2: when the book exists with a positive number of available copies, a
borrow succeeds, appends exactly one new loan whose status is borrowed,
whose returnDate is null and whose dueDate is its borrowDate plus 14 days,
and decrements that book's availableCopies by exactly one. -/
theorem c2_borrow_success (s : DBState) (uid : String) (bid : Nat)
    (title nm ph em : String) (now : Nat) (book : Book)
    (hbook : getBook s bid = some book)
    (havail : 0 < book.availableCopies) :
    ∃ br : BookBorrow,
      (borrowBook s uid bid title nm ph em now).2 = .ok br
    ∧ (borrowBook s uid bid title nm ph em now).1.bookBorrows =
        s.bookBorrows ++ [br]
    ∧ br.status = "borrowed"
    ∧ br.returnDate = none
    ∧ br.borrowDate = now
    ∧ br.dueDate = br.borrowDate + 14
    ∧ br.bookId = bid
    ∧ br.userId = uid
    ∧ getBook (borrowBook s uid bid title nm ph em now).1 bid =
        some { book with availableCopies := book.availableCopies - 1 } := by
  have hid : book.id = bid := getBook_id hbook
  have hmax : max 0 (book.availableCopies - 1) = book.availableCopies - 1 := by
    omega
  have hnotle : ¬ book.availableCopies ≤ 0 := by omega
  have hbase : s.books.find? (fun b => b.id == bid) = some book := hbook
  refine ⟨{ id := s.nextId, userId := uid, bookId := bid, bookTitle := title,
            borrowerName := nm, borrowerPhone := ph, borrowerEmail := em,
            borrowDate := now, dueDate := now + 14, returnDate := none,
            status := "borrowed" }, ?_, ?_, rfl, rfl, rfl, rfl, rfl, rfl, ?_⟩
  · simp [borrowBook, hbook, hnotle, createBookBorrow, updateBookAvail]
  · simp [borrowBook, hbook, hnotle, createBookBorrow, updateBookAvail]
  · have hcomm := find?_map_of_key_eq Book.id
      (fun b => if b.id == bid then
        { b with availableCopies := max 0 (book.availableCopies - 1) } else b)
      (fun x => by by_cases hx : x.id = bid <;> simp [hx]) s.books bid
    simp only [borrowBook, getBook]
    rw [hbase]
    simp only [hnotle, if_false, createBookBorrow, updateBookAvail]
    rw [hcomm, hbase]
    simp [hid, hmax]

/-- C6: returning a loan whose status is borrowed marks it returned with a
non-null returnDate (the current time), and when the associated book
exists its availableCopies is increased by exactly one. -/
theorem c6_return_success (s : DBState) (bid now : Nat) (br : BookBorrow)
    (book : Book) (h : getBorrow s bid = some br)
    (hst : br.status = "borrowed") (hbook : getBook s br.bookId = some book) :
    (returnCopy s bid now).2 =
      .ok (applyBorrowUpdate br "returned" (some now))
  ∧ (applyBorrowUpdate br "returned" (some now)).status = "returned"
  ∧ (applyBorrowUpdate br "returned" (some now)).returnDate = some now
  ∧ getBorrow (returnCopy s bid now).1 bid =
      some (applyBorrowUpdate br "returned" (some now))
  ∧ getBook (returnCopy s bid now).1 br.bookId =
      some { book with availableCopies := book.availableCopies + 1 } := by
  have hid : br.id = bid := getBorrow_id h
  have hbid : book.id = br.bookId := getBook_id hbook
  have hne : (br.status == "returned") = false := by simp [hst]
  have hbaseBr : s.bookBorrows.find? (fun b => b.id == bid) = some br := h
  have hbaseBk : s.books.find? (fun b => b.id == br.bookId) = some book := hbook
  have hf : ∀ x : BookBorrow,
      (if x.id == bid then applyBorrowUpdate br "returned" (some now)
       else x).id = x.id := by
    intro x
    by_cases hx : x.id = bid
    · simp [hx, applyBorrowUpdate, hid]
    · simp [hx]
  have hcommBr := find?_map_of_key_eq BookBorrow.id
    (fun x => if x.id == bid then applyBorrowUpdate br "returned" (some now)
      else x) hf s.bookBorrows bid
  have hg : ∀ x : Book,
      (if x.id == br.bookId then
        { x with availableCopies := book.availableCopies + 1 } else x).id =
        x.id := by
    intro x
    by_cases hx : x.id = br.bookId <;> simp [hx]
  have hcommBk := find?_map_of_key_eq Book.id
    (fun x => if x.id == br.bookId then
      { x with availableCopies := book.availableCopies + 1 } else x) hg
    s.books br.bookId
  refine ⟨?_, rfl, rfl, ?_, ?_⟩
  · simp only [returnCopy, getBorrow]
    rw [hbaseBr]
    simp [hne, updateBookBorrowStatus, getBorrow, hbaseBr]
  · simp only [returnCopy, getBorrow]
    rw [hbaseBr]
    simp only [hne, Bool.false_eq_true, if_false, updateBookBorrowStatus,
      getBorrow, getBook]
    rw [hbaseBr]
    simp only [hbaseBk]
    simp only [updateBookAvail]
    rw [hcommBr, hbaseBr]
    simp [hid]
  · simp only [returnCopy, getBorrow]
    rw [hbaseBr]
    simp only [hne, Bool.false_eq_true, if_false, updateBookBorrowStatus,
      getBorrow, getBook]
    rw [hbaseBr]
    simp only [hbaseBk]
    simp only [updateBookAvail]
    rw [hcommBk, hbaseBk]
    simp [hbid]

theorem c2_borrow_success_witness :
    getBook (borrowBook witStateTwo "u" 0 "B" "n" "p" "e" 7).1 0 =
      some { witBookTwo with availableCopies := 1 } := by
  obtain ⟨br, -, -, -, -, -, -, -, -, hbk⟩ :=
    c2_borrow_success witStateTwo "u" 0 "B" "n" "p" "e" 7 witBookTwo rfl
      (by decide)
  have hrec :
      ({ witBookTwo with
          availableCopies := witBookTwo.availableCopies - 1 } : Book) =
        { witBookTwo with availableCopies := 1 } := by decide
  rw [hrec] at hbk
  exact hbk

theorem c6_return_success_witness :
    (returnCopy witStateReturnable 0 9).2 =
      .ok (applyBorrowUpdate witBorrowedLoan "returned" (some 9))
  ∧ (applyBorrowUpdate witBorrowedLoan "returned" (some 9)).returnDate =
      some 9 :=
  have hmain := c6_return_success witStateReturnable 0 9 witBorrowedLoan
    witBookOne rfl rfl rfl
  ⟨hmain.1, hmain.2.2.1⟩

/-- C4: approving an application that carries a (truthy) card number, when
no student yet exists for that card number, appends exactly one student
whose cardId is the application's cardNumber, whose linking userId is the
application's account id when present and otherwise the synthesized
card-<id> string, leaving exactly one student for that card number; and a
second approval of the same application leaves the student table
unchanged. -/
theorem c4_approve_provisions_student_once (s : DBState) (appId : Nat)
    (app : LibraryCardApplication) (cn : String)
    (happ : getApp s appId = some app) (hcn : app.cardNumber = some cn)
    (hne : cn ≠ "") (hnone : countStudentsByCardId s.students cn = 0) :
    ∃ st : Student,
      (updateLibraryCardApplicationStatus s appId "approved").1.students =
        s.students ++ [st]
    ∧ st.cardId = cn
    ∧ st.userId = jsOrString app.userId ("card-" ++ toString app.id)
    ∧ st.name = app.firstName ++ " " ++ app.lastName
    ∧ countStudentsByCardId
        (updateLibraryCardApplicationStatus s appId "approved").1.students
        cn = 1
    ∧ (updateLibraryCardApplicationStatus
         (updateLibraryCardApplicationStatus s appId "approved").1 appId
         "approved").1.students =
        (updateLibraryCardApplicationStatus s appId "approved").1.students := by
  have hid : app.id = appId := getApp_id happ
  have hbase : s.apps.find? (fun a => a.id == appId) = some app := happ
  have hne' : (cn == "") = false := by simpa using hne
  have hrun : updateLibraryCardApplicationStatus s appId "approved" =
      ({ s with
          apps := s.apps.map (fun a =>
            if a.id == appId then ({ app with status := "approved" }) else a),
          students := s.students ++
            [{ id := s.nextId,
               userId := jsOrString app.userId ("card-" ++ toString app.id),
               cardId := cn,
               name := app.firstName ++ " " ++ app.lastName,
               studentClass := app.studentClass, field := app.field,
               rollNo := app.rollNo }],
          nextId := s.nextId + 1 },
        some ({ app with status := "approved" })) := by
    simp only [updateLibraryCardApplicationStatus, getApp]
    rw [hbase]
    simp [hcn, hne', hnone]
  have hcount1 : countStudentsByCardId
      (updateLibraryCardApplicationStatus s appId "approved").1.students
      cn = 1 := by
    rw [hrun]
    simp [countStudentsByCardId, List.filter_append,
      List.length_eq_zero.mp hnone]
  refine ⟨{ id := s.nextId,
            userId := jsOrString app.userId ("card-" ++ toString app.id),
            cardId := cn,
            name := app.firstName ++ " " ++ app.lastName,
            studentClass := app.studentClass, field := app.field,
            rollNo := app.rollNo }, ?_, rfl, rfl, rfl, hcount1, ?_⟩
  · rw [hrun]
  · have hf : ∀ x : LibraryCardApplication,
        (if x.id == appId then ({ app with status := "approved" })
         else x).id = x.id := by
      intro x
      by_cases hx : x.id = appId
      · simp [hx, hid]
      · simp [hx]
    have hcomm := find?_map_of_key_eq LibraryCardApplication.id
      (fun x => if x.id == appId then ({ app with status := "approved" })
        else x) hf s.apps appId
    rw [hrun]
    simp only [updateLibraryCardApplicationStatus, getApp]
    rw [hcomm, hbase]
    have hcnt : countStudentsByCardId (s.students ++
        [{ id := s.nextId,
           userId := jsOrString app.userId ("card-" ++ toString app.id),
           cardId := cn,
           name := app.firstName ++ " " ++ app.lastName,
           studentClass := app.studentClass, field := app.field,
           rollNo := app.rollNo }]) cn = 1 := by
      simp [countStudentsByCardId, List.filter_append,
        List.length_eq_zero.mp hnone]
    rw [hid] at hcnt
    simp [hid, hcn, hne', hcnt]

theorem c4_approve_provisions_student_once_witness :
    countStudentsByCardId
      (updateLibraryCardApplicationStatus c4State 0 "approved").1.students
      "CS-9-11" = 1
  ∧ (updateLibraryCardApplicationStatus
       (updateLibraryCardApplicationStatus c4State 0 "approved").1 0
       "approved").1.students =
      (updateLibraryCardApplicationStatus c4State 0 "approved").1.students := by
  obtain ⟨st, -, -, -, -, hcount, hidem⟩ :=
    c4_approve_provisions_student_once c4State 0 c4App "CS-9-11" rfl rfl
      (by decide) rfl
  exact ⟨hcount, hidem⟩

/-- C8: the library-card login fails with NotFound when no application
matches the card number, with NoCredential when the matched application
stores no (truthy) password hash, with InvalidCredential when the hash
comparison fails, and with the pending, rejected or other NotApproved
variant according to the normalised status; and it succeeds exactly when
the application is found, its stored hash matches the supplied secret and
its normalised status is approved. -/
theorem c8_cardLogin_taxonomy (compareHash : String → String → Bool)
    (apps : List LibraryCardApplication) (q pw : String) (hpw : pw ≠ "") :
    (memGetLibraryCardByCardNumber apps q = none →
       cardLogin compareHash apps q (some pw) = .notFound)
  ∧ (∀ app, memGetLibraryCardByCardNumber apps q = some app →
       (app.password = none ∨ app.password = some "") →
       cardLogin compareHash apps q (some pw) = .noCredential)
  ∧ (∀ app stored, memGetLibraryCardByCardNumber apps q = some app →
       app.password = some stored → stored ≠ "" →
       compareHash pw stored = false →
       cardLogin compareHash apps q (some pw) = .invalidCredential)
  ∧ (∀ app stored, memGetLibraryCardByCardNumber apps q = some app →
       app.password = some stored → stored ≠ "" →
       compareHash pw stored = true →
       normalizedStatus app.status = "pending" →
       cardLogin compareHash apps q (some pw) = .notApprovedPending)
  ∧ (∀ app stored, memGetLibraryCardByCardNumber apps q = some app →
       app.password = some stored → stored ≠ "" →
       compareHash pw stored = true →
       normalizedStatus app.status = "rejected" →
       cardLogin compareHash apps q (some pw) = .notApprovedRejected)
  ∧ (∀ app stored, memGetLibraryCardByCardNumber apps q = some app →
       app.password = some stored → stored ≠ "" →
       compareHash pw stored = true →
       normalizedStatus app.status ≠ "pending" →
       normalizedStatus app.status ≠ "rejected" →
       normalizedStatus app.status ≠ "approved" →
       cardLogin compareHash apps q (some pw) = .notApprovedOther)
  ∧ (∀ app, cardLogin compareHash apps q (some pw) = .success app ↔
       (memGetLibraryCardByCardNumber apps q = some app ∧
        ∃ stored, app.password = some stored ∧ stored ≠ "" ∧
          compareHash pw stored = true ∧
          normalizedStatus app.status = "approved")) := by
  have hpw' : (pw == "") = false := by simpa using hpw
  refine ⟨?_, ?_, ?_, ?_, ?_, ?_, ?_⟩
  · intro h
    simp [cardLogin, hpw', h]
  · rintro app hm (hp | hp) <;> simp [cardLogin, hpw', hm, hp]
  · intro app stored hm hp hs0 hcmp
    have hs0' : (stored == "") = false := by simpa using hs0
    simp [cardLogin, hpw', hm, hp, hs0', hcmp]
  · intro app stored hm hp hs0 hcmp hstat
    have hs0' : (stored == "") = false := by simpa using hs0
    simp [cardLogin, hpw', hm, hp, hs0', hcmp, hstat]
  · intro app stored hm hp hs0 hcmp hstat
    have hs0' : (stored == "") = false := by simpa using hs0
    simp [cardLogin, hpw', hm, hp, hs0', hcmp, hstat]
  · intro app stored hm hp hs0 hcmp h1 h2 h3
    have hs0' : (stored == "") = false := by simpa using hs0
    simp [cardLogin, hpw', hm, hp, hs0', hcmp, h1, h2, h3]
  · intro app
    constructor
    · intro hsucc
      rcases hm : memGetLibraryCardByCardNumber apps q with _ | a
      · simp [cardLogin, hpw', hm] at hsucc
      · rcases hp : a.password with _ | stored
        · simp [cardLogin, hpw', hm, hp] at hsucc
        · by_cases hs0 : stored = ""
          · simp [cardLogin, hpw', hm, hp, hs0] at hsucc
          · have hs0' : (stored == "") = false := by simpa using hs0
            cases hcmp : compareHash pw stored with
            | false => simp [cardLogin, hpw', hm, hp, hs0', hcmp] at hsucc
            | true =>
              by_cases h1 : normalizedStatus a.status = "pending"
              · simp [cardLogin, hpw', hm, hp, hs0', hcmp, h1] at hsucc
              · by_cases h2 : normalizedStatus a.status = "rejected"
                · simp [cardLogin, hpw', hm, hp, hs0', hcmp, h1, h2] at hsucc
                · by_cases h3 : normalizedStatus a.status = "approved"
                  · have hres : cardLogin compareHash apps q (some pw) =
                        .success a := by
                      simp [cardLogin, hpw', hm, hp, hs0', hcmp, h1, h2, h3]
                    rw [hres] at hsucc
                    cases hsucc
                    exact ⟨rfl, stored, hp, hs0, hcmp, h3⟩
                  · simp [cardLogin, hpw', hm, hp, hs0', hcmp, h1, h2, h3]
                      at hsucc
    · rintro ⟨hm, stored, hp, hs0, hcmp, hstat⟩
      have hs0' : (stored == "") = false := by simpa using hs0
      simp [cardLogin, hpw', hm, hp, hs0', hcmp, hstat]

theorem c8_cardLogin_taxonomy_witness :
    cardLogin (fun p h => p == h) [c8App] "XX-7-11" (some ("pw")) =
      .success c8App :=
  ((c8_cardLogin_taxonomy (fun p h => p == h) [c8App] "XX-7-11" "pw"
      (by decide)).2.2.2.2.2.2 c8App).mpr
    ⟨rfl, "pw", rfl, by decide, by decide, by decide⟩

theorem activeCount_append (l : List BookBorrow) (br : BookBorrow)
    (bid : Nat) :
    activeCount (l ++ [br]) bid =
      activeCount l bid + (if isActiveFor bid br then 1 else 0) := by
  unfold activeCount
  rw [List.countP_append, List.countP_cons, List.countP_nil]
  omega

theorem activeCount_replace (l : List BookBorrow)
    (hnd : l.Pairwise (fun a b => a.id ≠ b.id)) (br : BookBorrow)
    (hmem : br ∈ l) (tid : Nat) (hbr : br.id = tid) (nb : BookBorrow)
    (bid : Nat) :
    activeCount (l.map (fun x => if x.id == tid then nb else x)) bid +
      (if isActiveFor bid br then 1 else 0) =
    activeCount l bid + (if isActiveFor bid nb then 1 else 0) :=
  countP_map_replace BookBorrow.id (isActiveFor bid) hnd hmem hbr nb

theorem stateInv_init : StateInv initState := by
  constructor <;> simp [initState]

theorem stateInv_createBook (s : DBState) (nm si d : String) (n : Int)
    (hn : 0 ≤ n) (hInv : StateInv s) :
    StateInv (createBook s nm si d n).1 := by
  have hjs : 0 ≤ jsOrInt n 1 := by
    unfold jsOrInt
    split <;> omega
  have hrun : (createBook s nm si d n).1 =
      { s with
        books := s.books ++
          [{ id := s.nextId, bookName := nm, shortIntro := si,
             description := d, totalCopies := jsOrInt n 1,
             availableCopies := jsOrInt n 1 }],
        nextId := s.nextId + 1 } := by
    simp [createBook]
  rw [hrun]
  constructor
  · intro b hb
    rcases List.mem_append.mp hb with hb | hb
    · exact hInv.booksNonneg b hb
    · rw [List.mem_singleton] at hb
      subst hb
      exact hjs
  · intro b hb
    rcases List.mem_append.mp hb with hb | hb
    · exact hInv.booksBound b hb
    · rw [List.mem_singleton] at hb
      subst hb
      have hzero : activeCount s.bookBorrows s.nextId = 0 := by
        unfold activeCount
        rw [List.countP_eq_zero]
        intro br hbr
        have hlt := hInv.borrowBookIdLt br hbr
        simp [isActiveFor]
        intro heq
        omega
      simp [hzero]
  · intro b hb
    rcases List.mem_append.mp hb with hb | hb
    · exact Nat.lt_succ_of_lt (hInv.bookIdLt b hb)
    · rw [List.mem_singleton] at hb
      subst hb
      exact Nat.lt_succ_self _
  · intro br hbr
    exact Nat.lt_succ_of_lt (hInv.borrowIdLt br hbr)
  · intro br hbr
    exact Nat.lt_succ_of_lt (hInv.borrowBookIdLt br hbr)
  · rw [List.pairwise_append]
    refine ⟨hInv.bookIdsNodup, List.pairwise_singleton _ _, ?_⟩
    intro x hx y hy
    rw [List.mem_singleton] at hy
    subst hy
    have := hInv.bookIdLt x hx
    simp
    omega
  · exact hInv.borrowIdsNodup

theorem stateInv_borrow (s : DBState) (uid : String) (bid : Nat)
    (t nm ph em : String) (now : Nat) (hInv : StateInv s) :
    StateInv (borrowBook s uid bid t nm ph em now).1 := by
  rcases hbk : getBook s bid with _ | book
  · simpa [borrowBook, hbk] using hInv
  · by_cases hle : book.availableCopies ≤ 0
    · simpa [borrowBook, hbk, hle] using hInv
    · have hmembk : book ∈ s.books := List.mem_of_find?_eq_some hbk
      have hidbk : book.id = bid := getBook_id hbk
      have hrun : (borrowBook s uid bid t nm ph em now).1 =
          { s with
            books := s.books.map (fun b => if b.id == bid then
              { b with availableCopies := max 0 (book.availableCopies - 1) }
              else b),
            bookBorrows := s.bookBorrows ++
              [{ id := s.nextId, userId := uid, bookId := bid,
                 bookTitle := t, borrowerName := nm, borrowerPhone := ph,
                 borrowerEmail := em, borrowDate := now, dueDate := now + 14,
                 returnDate := none, status := "borrowed" }],
            nextId := s.nextId + 1 } := by
        simp [borrowBook, hbk, hle, createBookBorrow, updateBookAvail]
      rw [hrun]
      constructor
      · intro b hb
        rcases List.mem_map.mp hb with ⟨x, hx, rfl⟩
        by_cases hxb : x.id = bid
        · simp only [hxb, beq_self_eq_true, if_true]
          exact le_max_left 0 _
        · simpa [hxb] using hInv.booksNonneg x hx
      · intro b hb
        rcases List.mem_map.mp hb with ⟨x, hx, rfl⟩
        by_cases hxb : x.id = bid
        · have hxbook : x = book :=
            eq_of_mem_pairwise_key Book.id hInv.bookIdsNodup hx hmembk
              (by rw [hxb, hidbk])
          subst hxbook
          have hac : activeCount (s.bookBorrows ++
              [{ id := s.nextId, userId := uid, bookId := bid,
                 bookTitle := t, borrowerName := nm, borrowerPhone := ph,
                 borrowerEmail := em, borrowDate := now, dueDate := now + 14,
                 returnDate := none, status := "borrowed" }]) x.id =
              activeCount s.bookBorrows x.id + 1 := by
            rw [activeCount_append]
            simp [isActiveFor, hxb]
          have hbound := hInv.booksBound x hx
          have hmax : max 0 (x.availableCopies - 1) = x.availableCopies - 1 := by
            omega
          rw [hxb] at hac hbound
          simp [hxb, hac, hmax]
          omega
        · have hne2 : (bid == x.id) = false := by
            simp only [beq_eq_false_iff_ne, ne_eq]
            exact fun h => hxb h.symm
          have hac : activeCount (s.bookBorrows ++
              [{ id := s.nextId, userId := uid, bookId := bid,
                 bookTitle := t, borrowerName := nm, borrowerPhone := ph,
                 borrowerEmail := em, borrowDate := now, dueDate := now + 14,
                 returnDate := none, status := "borrowed" }]) x.id =
              activeCount s.bookBorrows x.id := by
            rw [activeCount_append]
            simp [isActiveFor, hne2]
          have hbound := hInv.booksBound x hx
          rw [if_neg (by simpa using hxb)]
          rw [hac]
          exact hbound
      · intro b hb
        rcases List.mem_map.mp hb with ⟨x, hx, rfl⟩
        have := hInv.bookIdLt x hx
        by_cases hxb : x.id = bid <;> simp [hxb] <;> omega
      · intro br hbr
        rcases List.mem_append.mp hbr with hbr | hbr
        · exact Nat.lt_succ_of_lt (hInv.borrowIdLt br hbr)
        · rw [List.mem_singleton] at hbr
          subst hbr
          exact Nat.lt_succ_self _
      · intro br hbr
        rcases List.mem_append.mp hbr with hbr | hbr
        · exact Nat.lt_succ_of_lt (hInv.borrowBookIdLt br hbr)
        · rw [List.mem_singleton] at hbr
          subst hbr
          show bid < s.nextId + 1
          have hlt := hInv.bookIdLt book hmembk
          rw [hidbk] at hlt
          omega
      · have hgid : ∀ x : Book,
            (if x.id == bid then
              { x with availableCopies := max 0 (book.availableCopies - 1) }
             else x).id = x.id := by
          intro x
          by_cases hx : x.id = bid <;> simp [hx]
        rw [List.pairwise_map]
        refine hInv.bookIdsNodup.imp ?_
        intro a b hab
        rw [hgid a, hgid b]
        exact hab
      · rw [List.pairwise_append]
        refine ⟨hInv.borrowIdsNodup, List.pairwise_singleton _ _, ?_⟩
        intro x hx y hy
        rw [List.mem_singleton] at hy
        subst hy
        have := hInv.borrowIdLt x hx
        simp
        omega

theorem stateInv_return (s : DBState) (bid now : Nat) (hInv : StateInv s) :
    StateInv (returnCopy s bid now).1 := by
  rcases hbr : getBorrow s bid with _ | br
  · simpa [returnCopy, hbr] using hInv
  · by_cases hret : (br.status == "returned") = true
    · simpa [returnCopy, hbr, hret] using hInv
    · have hmembr : br ∈ s.bookBorrows := List.mem_of_find?_eq_some hbr
      have hidbr : br.id = bid := getBorrow_id hbr
      have hretf : (br.status == "returned") = false := by
        simpa using hret
      have hbrbase : s.bookBorrows.find? (fun b => b.id == bid) = some br := hbr
      have hfid : ∀ x : BookBorrow,
          (if x.id == bid then applyBorrowUpdate br "returned" (some now)
           else x).id = x.id := by
        intro x
        by_cases hx : x.id = bid
        · simp [hx, applyBorrowUpdate, hidbr]
        · simp [hx]
      have hfbookId : ∀ x ∈ s.bookBorrows,
          (if x.id == bid then applyBorrowUpdate br "returned" (some now)
           else x).bookId < s.nextId := by
        intro x hx
        by_cases hxb : x.id = bid
        · simp only [hxb, beq_self_eq_true, if_true]
          exact hInv.borrowBookIdLt br hmembr
        · rw [if_neg (by simpa using hxb)]
          exact hInv.borrowBookIdLt x hx
      have hpu : ∀ bid2 : Nat,
          isActiveFor bid2 (applyBorrowUpdate br "returned" (some now)) =
            false := by
        intro bid2
        simp [isActiveFor, applyBorrowUpdate]
      have hcnt : ∀ bid2 : Nat,
          activeCount (s.bookBorrows.map (fun x =>
              if x.id == bid then applyBorrowUpdate br "returned" (some now)
              else x)) bid2 +
            (if isActiveFor bid2 br then 1 else 0) =
          activeCount s.bookBorrows bid2 := by
        intro bid2
        have := activeCount_replace s.bookBorrows hInv.borrowIdsNodup br
          hmembr bid hidbr (applyBorrowUpdate br "returned" (some now)) bid2
        rw [hpu bid2] at this
        simpa using this
      rcases hbk : getBook s br.bookId with _ | book
      · have hbkbase : s.books.find? (fun b => b.id == br.bookId) = none := hbk
        have hrun : (returnCopy s bid now).1 =
            { s with bookBorrows := s.bookBorrows.map (fun x =>
                if x.id == bid then applyBorrowUpdate br "returned" (some now)
                else x) } := by
          simp only [returnCopy, getBorrow]
          rw [hbrbase]
          simp only [hretf, Bool.false_eq_true, if_false,
            updateBookBorrowStatus, getBorrow]
          rw [hbrbase]
          simp only [getBook, hbkbase]
        rw [hrun]
        constructor
        · exact hInv.booksNonneg
        · intro b hb
          have hbound := hInv.booksBound b hb
          have hc := hcnt b.id
          show b.availableCopies +
              (activeCount (s.bookBorrows.map (fun x =>
                if x.id == bid then applyBorrowUpdate br "returned" (some now)
                else x)) b.id : Int) ≤ b.totalCopies
          by_cases hp : isActiveFor b.id br = true
          · rw [if_pos hp] at hc
            omega
          · rw [if_neg hp] at hc
            omega
        · exact hInv.bookIdLt
        · intro x' hx'
          rcases List.mem_map.mp hx' with ⟨x, hx, rfl⟩
          rw [hfid x]
          exact hInv.borrowIdLt x hx
        · intro x' hx'
          rcases List.mem_map.mp hx' with ⟨x, hx, rfl⟩
          exact hfbookId x hx
        · exact hInv.bookIdsNodup
        · rw [List.pairwise_map]
          refine hInv.borrowIdsNodup.imp ?_
          intro a b hab
          rw [hfid a, hfid b]
          exact hab
      · have hbkbase : s.books.find? (fun b => b.id == br.bookId) =
            some book := hbk
        have hmembk : book ∈ s.books := List.mem_of_find?_eq_some hbkbase
        have hidbk : book.id = br.bookId := getBook_id hbk
        have hgid : ∀ x : Book,
            (if x.id == br.bookId then
              { x with availableCopies := book.availableCopies + 1 }
             else x).id = x.id := by
          intro x
          by_cases hx : x.id = br.bookId <;> simp [hx]
        have hrun : (returnCopy s bid now).1 =
            { s with
              books := s.books.map (fun x =>
                if x.id == br.bookId then
                  { x with availableCopies := book.availableCopies + 1 }
                else x),
              bookBorrows := s.bookBorrows.map (fun x =>
                if x.id == bid then applyBorrowUpdate br "returned" (some now)
                else x) } := by
          simp only [returnCopy, getBorrow]
          rw [hbrbase]
          simp only [hretf, Bool.false_eq_true, if_false,
            updateBookBorrowStatus, getBorrow]
          rw [hbrbase]
          simp only [getBook, hbkbase, updateBookAvail]
        rw [hrun]
        constructor
        · intro b hb
          rcases List.mem_map.mp hb with ⟨x, hx, rfl⟩
          by_cases hxb : x.id = br.bookId
          · have hnn := hInv.booksNonneg book hmembk
            simp only [hxb, beq_self_eq_true, if_true]
            omega
          · rw [if_neg (by simpa using hxb)]
            exact hInv.booksNonneg x hx
        · intro b hb
          rcases List.mem_map.mp hb with ⟨x, hx, rfl⟩
          by_cases hxb : x.id = br.bookId
          · have hxbook : x = book :=
              eq_of_mem_pairwise_key Book.id hInv.bookIdsNodup hx hmembk
                (by rw [hxb, hidbk])
            subst hxbook
            have hbound := hInv.booksBound x hx
            have hc := hcnt x.id
            have hpbr : isActiveFor x.id br = true := by
              rw [hxb]
              simp [isActiveFor, bne, hretf]
            simp only [hpbr, if_pos] at hc
            rw [if_pos (show (x.id == br.bookId) = true by simpa using hxb)]
            show x.availableCopies + 1 +
                (activeCount (s.bookBorrows.map (fun y =>
                  if y.id == bid then
                    applyBorrowUpdate br "returned" (some now)
                  else y)) x.id : Int) ≤ x.totalCopies
            omega
          · have hbound := hInv.booksBound x hx
            have hc := hcnt x.id
            have hpbr : isActiveFor x.id br = false := by
              have hne3 : (br.bookId == x.id) = false := by
                simp only [beq_eq_false_iff_ne, ne_eq]
                exact fun h => hxb h.symm
              simp [isActiveFor, hne3]
            simp only [hpbr] at hc
            simp only [Bool.false_eq_true, if_false, Nat.add_zero] at hc
            rw [if_neg (by simpa using hxb)]
            show x.availableCopies +
                (activeCount (s.bookBorrows.map (fun y =>
                  if y.id == bid then
                    applyBorrowUpdate br "returned" (some now)
                  else y)) x.id : Int) ≤ x.totalCopies
            rw [hc]
            exact hbound
        · intro b hb
          rcases List.mem_map.mp hb with ⟨x, hx, rfl⟩
          rw [hgid x]
          exact hInv.bookIdLt x hx
        · intro x' hx'
          rcases List.mem_map.mp hx' with ⟨x, hx, rfl⟩
          rw [hfid x]
          exact hInv.borrowIdLt x hx
        · intro x' hx'
          rcases List.mem_map.mp hx' with ⟨x, hx, rfl⟩
          exact hfbookId x hx
        · rw [List.pairwise_map]
          refine hInv.bookIdsNodup.imp ?_
          intro a b hab
          rw [hgid a, hgid b]
          exact hab
        · rw [List.pairwise_map]
          refine hInv.borrowIdsNodup.imp ?_
          intro a b hab
          rw [hfid a, hfid b]
          exact hab

theorem stateInv_step {s s' : DBState} (h : LibStep s s') (hInv : StateInv s) :
    StateInv s' := by
  cases h with
  | createBook nm si d n hn => exact stateInv_createBook s nm si d n hn hInv
  | borrow uid bid t nm ph em now =>
    exact stateInv_borrow s uid bid t nm ph em now hInv
  | returnStep bid now => exact stateInv_return s bid now hInv

theorem stateInv_reachable {s : DBState} (h : LibReachable s) : StateInv s := by
  induction h with
  | init => exact stateInv_init
  | step hs hstep ih => exact stateInv_step hstep ih

/-- C1: in every state reachable from the empty repository by the core's
operations (admin book creation with a non-negative copy count, borrow,
returnCopy, and the book-counter updates they perform), every book
satisfies 0 <= availableCopies <= totalCopies. -/
theorem c1_book_copies_invariant (s : DBState) (h : LibReachable s) :
    ∀ b ∈ s.books,
      0 ≤ b.availableCopies ∧ b.availableCopies ≤ b.totalCopies := by
  intro b hb
  have hInv := stateInv_reachable h
  have h1 := hInv.booksNonneg b hb
  have h2 := hInv.booksBound b hb
  have h3 : (0 : Int) ≤ (activeCount s.bookBorrows b.id : Int) :=
    Int.ofNat_nonneg _
  exact ⟨h1, by omega⟩

theorem c1_book_copies_invariant_witness :
    0 ≤ c1DemoBook.availableCopies ∧
      c1DemoBook.availableCopies ≤ c1DemoBook.totalCopies :=
  c1_book_copies_invariant (createBook initState "B" "s" "d" 2).1
    (LibReachable.step LibReachable.init
      (LibStep.createBook initState "B" "s" "d" 2 (by decide)))
    c1DemoBook (by decide)
